import Mathlib

/-!
Shallow embedding of the truck/cargo matching core:
`src/app/utils/time_cost_calculator.py` and `src/app/utils/optimizer.py`.

Modelling conventions:
* Python floats (timestamps in hours, distances in km, prices, costs) are
  modelled as `ℚ`; `np.inf` (the value a cost-matrix cell is initialised to
  by `np.full(..., np.inf)`) is modelled as `⊤` in `WithTop ℚ`, which has
  the same order behaviour (`⊤` is strictly greater than every finite value
  and equal only to itself) and `⊤`-absorbing addition.
* A dataframe timestamp cell is modelled by `TimeStr`: either a string that
  `datetime.strptime(s, '%Y-%m-%d %H:%M:%S')` parses to an instant (carried
  as its value in hours), or a malformed string, on which `strptime` raises
  `ValueError`.
* Python exceptions are modelled by `Except Err`: the code under
  consideration has no `try/except`, so every raised exception propagates.
* The geodesic distance provider (`geopy.distance.geodesic(...).kilometers`)
  is an external capability; the builder takes it as an explicit function
  argument `dist` from (latitude, longitude) pairs to kilometers.
-/

/-- Exceptions that the embedded code can raise. `nameError` models the
`NameError` raised at `optimizer.py` line 44, where `datetime.strptime` is
referenced although `optimizer.py` never imports `datetime`; `valueError`
models `ValueError` from `datetime.strptime` on a malformed string;
`zeroDivisionError` models Python division by zero; `infeasibleMatrix`
models the `ValueError` scipy's `linear_sum_assignment` raises when the
matrix admits no full matching of finite cost. -/
inductive Err where
  | nameError
  | valueError
  | zeroDivisionError
  | infeasibleMatrix
  | solverFailure
deriving DecidableEq, Repr

/-- A timestamp dataframe cell: either parseable by
`datetime.strptime(s, '%Y-%m-%d %H:%M:%S')` with value `v` (an instant,
measured in hours), or malformed. -/
inductive TimeStr where
  | valid (v : ℚ)
  | malformed
deriving DecidableEq, Repr

/-- Models `datetime.strptime(s, '%Y-%m-%d %H:%M:%S')`: returns the parsed instant,
or raises `ValueError` on a malformed string. -/
def strptime : TimeStr → Except Err ℚ
  | .valid v => .ok v
  | .malformed => .error .valueError

/-- The `class TimeCostCalculator` (time_cost_calculator.py lines 4-6): holds the
`standard_speed_kmh` set by `__init__`. -/
structure TimeCostCalculator where
  standard_speed_kmh : ℚ
deriving DecidableEq, Repr

/-- Construction `TimeCostCalculator()` with the default
`standard_speed_kmh=73`.  The constructor performs no validation. -/
def mkTimeCostCalculator : TimeCostCalculator := ⟨73⟩

/-- Method `calculate_travel_time` (lines 8-10): `distance_km / self.standard_speed_kmh`.
Python float division raises `ZeroDivisionError` when the divisor is zero;
there is no guard in the source. -/
def TimeCostCalculator.calculate_travel_time (self : TimeCostCalculator)
    (distance_km : ℚ) : Except Err ℚ :=
  if self.standard_speed_kmh = 0 then .error .zeroDivisionError
  else .ok (distance_km / self.standard_speed_kmh)

/-- Method `calculate_pickup_time` (lines 12-17): computes the travel time, parses
`dropoff_time` when it is a string (it always is when called from the
builder, whose dataframe cells are CSV strings), and returns
`dropoff_time - timedelta(hours=travel_time)`. -/
def TimeCostCalculator.calculate_pickup_time (self : TimeCostCalculator)
    (dropoff_time : TimeStr) (distance_km : ℚ) : Except Err ℚ := do
  let travel_time ← self.calculate_travel_time distance_km
  let t ← strptime dropoff_time
  return t - travel_time

/-- Method `calculate_waiting_time` (lines 19-26): parses `cargo_available_from`
and returns the early-arrival wait in hours
(`(cargo_available_from - pickup_time)` when the truck is early, else 0). -/
def TimeCostCalculator.calculate_waiting_time (_self : TimeCostCalculator)
    (pickup_time : ℚ) (cargo_available_from : TimeStr) : Except Err ℚ := do
  let a ← strptime cargo_available_from
  if pickup_time < a then return a - pickup_time else return 0

/-- Method `calculate_total_cost` (lines 28-32):
`distance_km * price_per_km + waiting_hours * waiting_price_per_hour`.
No sign or range validation is performed on any of the four inputs. -/
def TimeCostCalculator.calculate_total_cost (_self : TimeCostCalculator)
    (distance_km waiting_hours price_per_km waiting_price_per_hour : ℚ) : ℚ :=
  let distance_cost := distance_km * price_per_km
  let waiting_cost := waiting_hours * waiting_price_per_hour
  distance_cost + waiting_cost

/-- A row of `trucks_df`: `'Latitude (dropoff)'`, `'Longitude (dropoff)'`,
`'Timestamp (dropoff)'`, `'price per km, Eur'`, `'waiting time price per h,
EUR'`.  The two price cells are modelled after the `float(...)` conversion
(assumed numeric, possibly negative — the code never checks signs). -/
structure Truck where
  latitude_dropoff : ℚ
  longitude_dropoff : ℚ
  timestamp_dropoff : TimeStr
  price_per_km : ℚ
  waiting_price_per_h : ℚ
deriving DecidableEq, Repr

/-- A row of `cargo_df`: `'Delivery_Latitude'`, `'Delivery_Longitude'`,
`'Available_From'`, `'Available_To'`. -/
structure Cargo where
  delivery_latitude : ℚ
  delivery_longitude : ℚ
  available_from : TimeStr
  available_to : TimeStr
deriving DecidableEq, Repr

/-- The `time_info[(i, j)]` diagnostic dict recorded for a feasible pair
(optimizer.py lines 47-54). -/
structure CostEntry where
  pickup_time : ℚ
  waiting_hours : ℚ
  distance : ℚ
  distance_cost : ℚ
  waiting_cost : ℚ
  total_cost : ℚ
deriving DecidableEq, Repr

/-- One iteration of the inner loop of `calculate_cost_matrix`
(optimizer.py lines 18-54), exactly as the source is written: after the
distance, pickup time, waiting time and total cost are computed, line 44
evaluates `datetime.strptime(...)` — but `optimizer.py` never imports
`datetime`, so this raises `NameError` unconditionally.  The result is the
cell value and the optional `time_info` entry for the pair. -/
def pairCell (dist : ℚ × ℚ → ℚ × ℚ → ℚ) (calculator : TimeCostCalculator)
    (truck : Truck) (cargo : Cargo) : Except Err (WithTop ℚ × Option CostEntry) := do
  let distance := dist (truck.latitude_dropoff, truck.longitude_dropoff)
    (cargo.delivery_latitude, cargo.delivery_longitude)
  let pickup_time ← calculator.calculate_pickup_time truck.timestamp_dropoff distance
  let waiting_hours ← calculator.calculate_waiting_time pickup_time cargo.available_from
  let _total_cost := calculator.calculate_total_cost distance waiting_hours
    truck.price_per_km truck.waiting_price_per_h
  .error .nameError

/-- One iteration of the inner loop of `calculate_cost_matrix` as evidently
intended: identical to `pairCell` except that line 44's
`datetime.strptime(cargo['Available_To'], ...)` actually runs (i.e. with the
missing `datetime` import supplied to `optimizer.py`; the sibling module
`time_cost_calculator.py` performs exactly this call).  Feasibility gate at
line 45: the cell and entry are written iff `pickup_time <= available_to`;
otherwise the cell keeps its `np.inf` initial value and no entry exists. -/
def pairCellFixed (dist : ℚ × ℚ → ℚ × ℚ → ℚ) (calculator : TimeCostCalculator)
    (truck : Truck) (cargo : Cargo) : Except Err (WithTop ℚ × Option CostEntry) := do
  let distance := dist (truck.latitude_dropoff, truck.longitude_dropoff)
    (cargo.delivery_latitude, cargo.delivery_longitude)
  let pickup_time ← calculator.calculate_pickup_time truck.timestamp_dropoff distance
  let waiting_hours ← calculator.calculate_waiting_time pickup_time cargo.available_from
  let total_cost := calculator.calculate_total_cost distance waiting_hours
    truck.price_per_km truck.waiting_price_per_h
  let cargo_available_to ← strptime cargo.available_to
  if pickup_time ≤ cargo_available_to then
    .ok (↑total_cost, some ⟨pickup_time, waiting_hours, distance,
      distance * truck.price_per_km, waiting_hours * truck.waiting_price_per_h,
      total_cost⟩)
  else
    .ok (⊤, none)

/-- The inner loop over `cargo_df` for row `i`, starting at column `j`,
producing the row's cells and the `time_info` entries recorded in this row
(in insertion = column order), using the faithful `pairCell`. -/
def buildCells (dist : ℚ × ℚ → ℚ × ℚ → ℚ) (calculator : TimeCostCalculator)
    (truck : Truck) (i : ℕ) :
    ℕ → List Cargo → Except Err (List (WithTop ℚ) × List ((ℕ × ℕ) × CostEntry))
  | _, [] => .ok ([], [])
  | j, cargo :: rest => do
    let (cell, eopt) ← pairCell dist calculator truck cargo
    let (cells, entries) ← buildCells dist calculator truck i (j + 1) rest
    .ok (cell :: cells, (eopt.map fun e => ((i, j), e)).toList ++ entries)

/-- The inner loop over `cargo_df` for row `i`, using `pairCellFixed`. -/
def buildCellsFixed (dist : ℚ × ℚ → ℚ × ℚ → ℚ) (calculator : TimeCostCalculator)
    (truck : Truck) (i : ℕ) :
    ℕ → List Cargo → Except Err (List (WithTop ℚ) × List ((ℕ × ℕ) × CostEntry))
  | _, [] => .ok ([], [])
  | j, cargo :: rest => do
    let (cell, eopt) ← pairCellFixed dist calculator truck cargo
    let (cells, entries) ← buildCellsFixed dist calculator truck i (j + 1) rest
    .ok (cell :: cells, (eopt.map fun e => ((i, j), e)).toList ++ entries)

/-- The outer loop over `trucks_df`, starting at row `i`, with the faithful
per-pair body. -/
def buildRows (dist : ℚ × ℚ → ℚ × ℚ → ℚ) (calculator : TimeCostCalculator)
    (cargo_df : List Cargo) :
    ℕ → List Truck → Except Err (List (List (WithTop ℚ)) × List ((ℕ × ℕ) × CostEntry))
  | _, [] => .ok ([], [])
  | i, truck :: rest => do
    let (cells, entries) ← buildCells dist calculator truck i 0 cargo_df
    let (rows, entries') ← buildRows dist calculator cargo_df (i + 1) rest
    .ok (cells :: rows, entries ++ entries')

/-- The outer loop over `trucks_df`, with the intended per-pair body. -/
def buildRowsFixed (dist : ℚ × ℚ → ℚ × ℚ → ℚ) (calculator : TimeCostCalculator)
    (cargo_df : List Cargo) :
    ℕ → List Truck → Except Err (List (List (WithTop ℚ)) × List ((ℕ × ℕ) × CostEntry))
  | _, [] => .ok ([], [])
  | i, truck :: rest => do
    let (cells, entries) ← buildCellsFixed dist calculator truck i 0 cargo_df
    let (rows, entries') ← buildRowsFixed dist calculator cargo_df (i + 1) rest
    .ok (cells :: rows, entries ++ entries')

/-- Function `calculate_cost_matrix` (optimizer.py lines 8-56) as the source is
written: creates `TimeCostCalculator()` (default speed 73), iterates over
every (truck, cargo) pair populating the `np.inf`-initialised matrix and
the `time_info` dict.  Because `optimizer.py` does not import `datetime`,
line 44 raises `NameError` on the very first pair, so every call with at
least one truck and one cargo propagates an exception; a malformed
timestamp likewise raises `ValueError` with no handler.  The matrix is
returned only when one of the collections is empty (the loops never run). -/
def calculate_cost_matrix (dist : ℚ × ℚ → ℚ × ℚ → ℚ)
    (trucks_df : List Truck) (cargo_df : List Cargo) :
    Except Err (List (List (WithTop ℚ)) × List ((ℕ × ℕ) × CostEntry)) :=
  buildRows dist mkTimeCostCalculator cargo_df 0 trucks_df

/-- Function `calculate_cost_matrix` as evidently intended (with the missing
`datetime` import supplied so line 44 performs the `strptime` call);
identical to `calculate_cost_matrix` otherwise. -/
def calculate_cost_matrixFixed (dist : ℚ × ℚ → ℚ × ℚ → ℚ)
    (trucks_df : List Truck) (cargo_df : List Cargo) :
    Except Err (List (List (WithTop ℚ)) × List ((ℕ × ℕ) × CostEntry)) :=
  buildRowsFixed dist mkTimeCostCalculator cargo_df 0 trucks_df

/-- Cell `(i, j)` of the built matrix (row-major list of rows).  Both
indices are always used in range; the defaults are the `np.inf` initial
value. -/
def entry (M : List (List (WithTop ℚ))) (i j : ℕ) : WithTop ℚ :=
  (M.getD i []).getD j ⊤

/-- Lookup of `time_info[(i, j)]`. -/
def findEntry (info : List ((ℕ × ℕ) × CostEntry)) (i j : ℕ) : Option CostEntry :=
  (info.find? fun x => x.1.1 == i && x.1.2 == j).map Prod.snd

/-- The distance computed for a (truck, cargo) pair (optimizer.py lines
19-21). -/
def pairDist (dist : ℚ × ℚ → ℚ × ℚ → ℚ) (truck : Truck) (cargo : Cargo) : ℚ :=
  dist (truck.latitude_dropoff, truck.longitude_dropoff)
    (cargo.delivery_latitude, cargo.delivery_longitude)

/-- A valid partial matching over an `n × m` cost matrix all of whose pairs
are feasible (finite cells), with no row or column index used twice (spec §3
Assignment). -/
def ValidPartialMatching (n m : ℕ) (M : List (List (WithTop ℚ)))
    (L : List (ℕ × ℕ)) : Prop :=
  (L.map Prod.fst).Nodup ∧ (L.map Prod.snd).Nodup ∧ L.length ≤ min n m ∧
  ∀ p ∈ L, p.1 < n ∧ p.2 < m ∧ entry M p.1 p.2 ≠ ⊤

/-- All length-`k` duplicate-free lists over `{0, ..., n-1}` (the possible
row- or column-index selections of a size-`k` matching), in a fixed
deterministic enumeration order. -/
def kperms (n k : ℕ) : List (List ℕ) :=
  ((List.range n).sublistsLen k).flatMap List.permutations'

/-- All full matchings of an `n × m` matrix: lists of `min n m` pairs with
distinct row indices below `n` and distinct column indices below `m`. -/
def candidateMatchings (n m : ℕ) : List (List (ℕ × ℕ)) :=
  (kperms n (min n m)).flatMap fun R => (kperms m (min n m)).map fun C => R.zip C

/-- Total cost of a matching over matrix `M`; the sum in `WithTop ℚ` is
`⊤`-absorbing, matching IEEE summation with `inf`. -/
def matchCost (M : List (List (WithTop ℚ))) (L : List (ℕ × ℕ)) : WithTop ℚ :=
  (L.map fun p => entry M p.1 p.2).sum

/-- One comparison step of the minimum search: keep the incumbent unless the
new candidate is strictly cheaper (so the first minimum in enumeration order
wins — a deterministic tie-break). -/
def pickStep (M : List (List (WithTop ℚ))) (acc : Option (List (ℕ × ℕ) × WithTop ℚ))
    (L : List (ℕ × ℕ)) : Option (List (ℕ × ℕ) × WithTop ℚ) :=
  match acc with
  | none => some (L, matchCost M L)
  | some (L₀, c₀) =>
    if matchCost M L < c₀ then some (L, matchCost M L) else some (L₀, c₀)

/-- First minimum-cost candidate (deterministic tie-break by enumeration
order). -/
def pickBest (M : List (List (WithTop ℚ))) (cands : List (List (ℕ × ℕ))) :
    Option (List (ℕ × ℕ) × WithTop ℚ) :=
  cands.foldl (pickStep M) none

/-- Models `scipy.optimize.linear_sum_assignment` on the rectangular cost
matrix, per its documented contract: it returns a deterministic
minimum-total-cost matching of size `min(rows, cols)` in which each row and
each column is used at most once (`inf` cells forbid a pairing), and raises
`ValueError` (`cost matrix is infeasible`) when every full matching has
infinite cost.  scipy's concrete tie-breaking order among equal-cost optima
is unspecified but deterministic; the model fixes it by enumeration order. -/
def linear_sum_assignment (M : List (List (WithTop ℚ))) :
    Except Err (List (ℕ × ℕ)) :=
  let n := M.length
  let m := (M.getD 0 []).length
  match pickBest M (candidateMatchings n m) with
  | none => .error .solverFailure
  | some (L, c) => if c = ⊤ then .error .infeasibleMatrix else .ok L

/-- Function `optimize_assignments` (optimizer.py lines 59-72) as the source is
written: builds the cost matrix with `calculate_cost_matrix` (which raises
for any non-empty pair of collections, see `calculate_cost_matrix`), runs
`linear_sum_assignment`, and filters out pairs whose cell is `np.inf`. -/
def optimize_assignments (dist : ℚ × ℚ → ℚ × ℚ → ℚ)
    (trucks_df : List Truck) (cargo_df : List Cargo) :
    Except Err (List (ℕ × ℕ) × List ((ℕ × ℕ) × CostEntry)) := do
  let (cost_matrix, time_info) ← calculate_cost_matrix dist trucks_df cargo_df
  let pairs ← linear_sum_assignment cost_matrix
  return (pairs.filter fun p => decide (entry cost_matrix p.1 p.2 ≠ ⊤), time_info)

/-- Function `optimize_assignments` with the intended builder
(`calculate_cost_matrixFixed`); identical otherwise. -/
def optimize_assignmentsFixed (dist : ℚ × ℚ → ℚ × ℚ → ℚ)
    (trucks_df : List Truck) (cargo_df : List Cargo) :
    Except Err (List (ℕ × ℕ) × List ((ℕ × ℕ) × CostEntry)) := do
  let (cost_matrix, time_info) ← calculate_cost_matrixFixed dist trucks_df cargo_df
  let pairs ← linear_sum_assignment cost_matrix
  return (pairs.filter fun p => decide (entry cost_matrix p.1 p.2 ≠ ⊤), time_info)

/-! ### Basic lemmas about the `Except` plumbing and `time_info` lookup -/

theorem ok_bind {α β : Type} (a : α) (f : α → Except Err β) :
    (Except.ok a >>= f) = f a := rfl

theorem error_bind {α β : Type} (e : Err) (f : α → Except Err β) :
    ((Except.error e : Except Err α) >>= f) = Except.error e := rfl

theorem pure_eq_ok {α : Type} (a : α) : (pure a : Except Err α) = Except.ok a := rfl

theorem bind_ok_iff {α β : Type} (x : Except Err α) (f : α → Except Err β) (b : β) :
    (x >>= f) = .ok b ↔ ∃ a, x = .ok a ∧ f a = .ok b := by
  cases x <;> simp [ok_bind, error_bind]

theorem findEntry_nil (i j : ℕ) : findEntry [] i j = none := rfl

theorem findEntry_cons_self (e : CostEntry) (rest : List ((ℕ × ℕ) × CostEntry))
    (i j : ℕ) : findEntry (((i, j), e) :: rest) i j = some e := by
  simp [findEntry]

theorem findEntry_cons_ne (k : ℕ × ℕ) (e : CostEntry)
    (rest : List ((ℕ × ℕ) × CostEntry)) (i j : ℕ) (h : k ≠ (i, j)) :
    findEntry ((k, e) :: rest) i j = findEntry rest i j := by
  have hk : ¬(k.1 = i ∧ k.2 = j) := by
    intro hc
    exact h (Prod.ext hc.1 hc.2)
  simp only [findEntry]
  rw [List.find?_cons_of_neg]
  simp only [Bool.and_eq_true, beq_iff_eq]
  exact hk

theorem findEntry_none (es : List ((ℕ × ℕ) × CostEntry)) (i j : ℕ)
    (h : ∀ p ∈ es, p.1 ≠ (i, j)) : findEntry es i j = none := by
  simp only [findEntry, Option.map_eq_none', List.find?_eq_none]
  intro x hx
  have := h x hx
  simp only [Bool.and_eq_true, beq_iff_eq]
  intro hc
  exact this (Prod.ext hc.1 hc.2)

theorem findEntry_append_some (es₁ es₂ : List ((ℕ × ℕ) × CostEntry)) (i j : ℕ)
    (e : CostEntry) (h : findEntry es₁ i j = some e) :
    findEntry (es₁ ++ es₂) i j = some e := by
  simp only [findEntry, Option.map_eq_some'] at h ⊢
  obtain ⟨p, hp, rfl⟩ := h
  exact ⟨p, by simp [List.find?_append, hp], rfl⟩

theorem findEntry_append_none (es₁ es₂ : List ((ℕ × ℕ) × CostEntry)) (i j : ℕ)
    (h : findEntry es₁ i j = none) :
    findEntry (es₁ ++ es₂) i j = findEntry es₂ i j := by
  simp only [findEntry, Option.map_eq_none'] at h
  simp [findEntry, List.find?_append, h]

/-! ### Inversion of the per-pair computation (intended variant) -/

theorem pairCellFixed_ok (dist : ℚ × ℚ → ℚ × ℚ → ℚ) (calcu : TimeCostCalculator)
    (truck : Truck) (cargo : Cargo) (cell : WithTop ℚ) (eopt : Option CostEntry)
    (h : pairCellFixed dist calcu truck cargo = .ok (cell, eopt)) :
    ∃ p w a,
      calcu.calculate_pickup_time truck.timestamp_dropoff (pairDist dist truck cargo) = .ok p ∧
      calcu.calculate_waiting_time p cargo.available_from = .ok w ∧
      strptime cargo.available_to = .ok a ∧
      ((p ≤ a ∧
          cell = ↑(calcu.calculate_total_cost (pairDist dist truck cargo) w
            truck.price_per_km truck.waiting_price_per_h) ∧
          eopt = some ⟨p, w, pairDist dist truck cargo,
            pairDist dist truck cargo * truck.price_per_km,
            w * truck.waiting_price_per_h,
            calcu.calculate_total_cost (pairDist dist truck cargo) w
              truck.price_per_km truck.waiting_price_per_h⟩) ∨
        (¬p ≤ a ∧ cell = ⊤ ∧ eopt = none)) := by
  simp only [pairCellFixed, bind_ok_iff, pairDist] at h ⊢
  obtain ⟨p, hp, w, hw, a, ha, hif⟩ := h
  refine ⟨p, w, a, hp, hw, ha, ?_⟩
  by_cases hpa : p ≤ a
  · rw [if_pos hpa] at hif
    simp only [Except.ok.injEq, Prod.mk.injEq] at hif
    exact Or.inl ⟨hpa, hif.1.symm, hif.2.symm⟩
  · rw [if_neg hpa] at hif
    simp only [Except.ok.injEq, Prod.mk.injEq] at hif
    exact Or.inr ⟨hpa, hif.1.symm, hif.2.symm⟩

/-! ### Characterisation of the intended build -/

theorem buildCellsFixed_ok (dist : ℚ × ℚ → ℚ × ℚ → ℚ) (calcu : TimeCostCalculator)
    (truck : Truck) (i : ℕ) :
    ∀ (cs : List Cargo) (j₀ : ℕ) (cells : List (WithTop ℚ))
      (es : List ((ℕ × ℕ) × CostEntry)),
      buildCellsFixed dist calcu truck i j₀ cs = .ok (cells, es) →
      cells.length = cs.length ∧
      (∀ p ∈ es, p.1.1 = i ∧ j₀ ≤ p.1.2) ∧
      ∀ (j : ℕ) (hj : j < cs.length),
        ∃ cell eopt, pairCellFixed dist calcu truck (cs.get ⟨j, hj⟩) = .ok (cell, eopt) ∧
          cells.getD j ⊤ = cell ∧ findEntry es i (j₀ + j) = eopt := by
  intro cs
  induction cs with
  | nil =>
    intro j₀ cells es h
    simp only [buildCellsFixed, Except.ok.injEq, Prod.mk.injEq] at h
    obtain ⟨h1, h2⟩ := h
    subst h1; subst h2
    refine ⟨rfl, by simp, ?_⟩
    intro j hj
    exact absurd hj (by simp)
  | cons cargo rest ih =>
    intro j₀ cells es h
    simp only [buildCellsFixed, bind_ok_iff] at h
    obtain ⟨⟨cell, eopt⟩, hpc, ⟨⟨cells', es'⟩, hrec, heq⟩⟩ := h
    simp only [Except.ok.injEq, Prod.mk.injEq] at heq
    obtain ⟨hc, he⟩ := heq
    subst hc; subst he
    obtain ⟨ihlen, ihkeys, ihspec⟩ := ih (j₀ + 1) cells' es' hrec
    refine ⟨by simp [ihlen], ?_, ?_⟩
    · intro p hp
      rcases List.mem_append.1 hp with hp | hp
      · cases eopt with
        | none => simp at hp
        | some e =>
          simp only [Option.map_some', Option.toList_some, List.mem_singleton] at hp
          subst hp
          exact ⟨rfl, Nat.le_refl _⟩
      · obtain ⟨hk1, hk2⟩ := ihkeys p hp
        exact ⟨hk1, Nat.le_of_succ_le hk2⟩
    · intro j hj
      cases j with
      | zero =>
        refine ⟨cell, eopt, hpc, rfl, ?_⟩
        cases eopt with
        | none =>
          simp only [Option.map_none', Option.toList_none, List.nil_append]
          refine findEntry_none es' i (j₀ + 0) ?_
          intro p hp hcontra
          obtain ⟨_, hk2⟩ := ihkeys p hp
          rw [hcontra] at hk2
          simp at hk2
        | some e =>
          simp only [Option.map_some', Option.toList_some, List.cons_append, Nat.add_zero]
          exact findEntry_append_some [((i, j₀), e)] es' i j₀ e
            (findEntry_cons_self e [] i j₀)
      | succ k =>
        have hk : k < rest.length := by simpa using hj
        obtain ⟨cell', eopt', hpc', hcell', hfind'⟩ := ihspec k hk
        refine ⟨cell', eopt', hpc', by simpa using hcell', ?_⟩
        have harith : j₀ + (k + 1) = (j₀ + 1) + k := by omega
        cases eopt with
        | none =>
          simpa [harith] using hfind'
        | some e =>
          simp only [Option.map_some', Option.toList_some, List.cons_append,
            List.nil_append]
          rw [findEntry_cons_ne (i, j₀) e es' i (j₀ + (k + 1)) (by
            intro hcontra
            have := congrArg Prod.snd hcontra
            simp at this)]
          rw [harith]
          exact hfind'

theorem buildRowsFixed_ok (dist : ℚ × ℚ → ℚ × ℚ → ℚ) (calcu : TimeCostCalculator)
    (cs : List Cargo) :
    ∀ (ts : List Truck) (i₀ : ℕ) (rows : List (List (WithTop ℚ)))
      (es : List ((ℕ × ℕ) × CostEntry)),
      buildRowsFixed dist calcu cs i₀ ts = .ok (rows, es) →
      rows.length = ts.length ∧
      (∀ r ∈ rows, r.length = cs.length) ∧
      (∀ p ∈ es, i₀ ≤ p.1.1) ∧
      ∀ (i : ℕ) (hi : i < ts.length) (j : ℕ) (hj : j < cs.length),
        ∃ cell eopt,
          pairCellFixed dist calcu (ts.get ⟨i, hi⟩) (cs.get ⟨j, hj⟩) = .ok (cell, eopt) ∧
          (rows.getD i []).getD j ⊤ = cell ∧ findEntry es (i₀ + i) j = eopt := by
  intro ts
  induction ts with
  | nil =>
    intro i₀ rows es h
    simp only [buildRowsFixed, Except.ok.injEq, Prod.mk.injEq] at h
    obtain ⟨h1, h2⟩ := h
    subst h1; subst h2
    refine ⟨rfl, by simp, by simp, ?_⟩
    intro i hi
    exact absurd hi (by simp)
  | cons truck rest ih =>
    intro i₀ rows es h
    simp only [buildRowsFixed, bind_ok_iff] at h
    obtain ⟨⟨cells, esRow⟩, hrow, ⟨⟨rows', es'⟩, hrec, heq⟩⟩ := h
    simp only [Except.ok.injEq, Prod.mk.injEq] at heq
    obtain ⟨hc, he⟩ := heq
    subst hc; subst he
    obtain ⟨rowLen, rowKeys, rowSpec⟩ := buildCellsFixed_ok dist calcu truck i₀ cs 0 cells esRow hrow
    obtain ⟨ihLen, ihRowLen, ihKeys, ihSpec⟩ := ih (i₀ + 1) rows' es' hrec
    refine ⟨by simp [ihLen], ?_, ?_, ?_⟩
    · intro r hr
      rcases List.mem_cons.1 hr with hr | hr
      · subst hr; exact rowLen
      · exact ihRowLen r hr
    · intro p hp
      rcases List.mem_append.1 hp with hp | hp
      · exact Nat.le_of_eq (rowKeys p hp).1.symm
      · exact Nat.le_of_succ_le (ihKeys p hp)
    · intro i hi j hj
      cases i with
      | zero =>
        obtain ⟨cell, eopt, hpc, hcell, hfind⟩ := rowSpec j hj
        refine ⟨cell, eopt, hpc, by simpa using hcell, ?_⟩
        simp only [Nat.add_zero] at hfind ⊢
        cases eopt with
        | none =>
          rw [findEntry_append_none esRow es' i₀ j (by simpa using hfind)]
          refine findEntry_none es' i₀ j ?_
          intro p hp hcontra
          have := ihKeys p hp
          rw [hcontra] at this
          simp at this
        | some e =>
          exact findEntry_append_some esRow es' i₀ j e (by simpa using hfind)
      | succ k =>
        have hk : k < rest.length := by simpa using hi
        obtain ⟨cell, eopt, hpc, hcell, hfind⟩ := ihSpec k hk j hj
        refine ⟨cell, eopt, by simpa using hpc, by simpa using hcell, ?_⟩
        have hnone : findEntry esRow (i₀ + (k + 1)) j = none := by
          refine findEntry_none esRow (i₀ + (k + 1)) j ?_
          intro p hp hcontra
          have := (rowKeys p hp).1
          rw [hcontra] at this
          simp at this
        rw [findEntry_append_none esRow es' (i₀ + (k + 1)) j hnone]
        have harith : i₀ + (k + 1) = (i₀ + 1) + k := by omega
        rw [harith]
        exact hfind

theorem calculate_cost_matrixFixed_ok (dist : ℚ × ℚ → ℚ × ℚ → ℚ)
    (ts : List Truck) (cs : List Cargo) (M : List (List (WithTop ℚ)))
    (info : List ((ℕ × ℕ) × CostEntry))
    (h : calculate_cost_matrixFixed dist ts cs = .ok (M, info)) :
    M.length = ts.length ∧
    (∀ r ∈ M, r.length = cs.length) ∧
    ∀ (i : ℕ) (hi : i < ts.length) (j : ℕ) (hj : j < cs.length),
      ∃ cell eopt,
        pairCellFixed dist mkTimeCostCalculator (ts.get ⟨i, hi⟩) (cs.get ⟨j, hj⟩)
          = .ok (cell, eopt) ∧
        entry M i j = cell ∧ findEntry info i j = eopt := by
  obtain ⟨h1, h2, _, h4⟩ := buildRowsFixed_ok dist mkTimeCostCalculator cs ts 0 M info h
  refine ⟨h1, h2, ?_⟩
  intro i hi j hj
  obtain ⟨cell, eopt, hpc, hcell, hfind⟩ := h4 i hi j hj
  exact ⟨cell, eopt, hpc, hcell, by simpa using hfind⟩

/-! ### Properties of the matching enumeration -/

theorem kperms_sound (n k : ℕ) (xs : List ℕ) (h : xs ∈ kperms n k) :
    xs.Nodup ∧ xs.length = k ∧ ∀ x ∈ xs, x < n := by
  simp only [kperms, List.mem_flatMap] at h
  obtain ⟨ys, hys, hperm⟩ := h
  rw [List.mem_sublistsLen] at hys
  obtain ⟨hsub, hlen⟩ := hys
  rw [List.mem_permutations'] at hperm
  have hndys : ys.Nodup := hsub.nodup (List.nodup_range n)
  refine ⟨hperm.nodup_iff.2 hndys, by rw [hperm.length_eq, hlen], ?_⟩
  intro x hx
  have hx' : x ∈ ys := hperm.mem_iff.1 hx
  have := hsub.subset hx'
  simpa using this

theorem kperms_complete (n k : ℕ) (xs : List ℕ) (hnd : xs.Nodup)
    (hlen : xs.length = k) (hbound : ∀ x ∈ xs, x < n) : xs ∈ kperms n k := by
  classical
  have hndys : ((List.range n).filter (fun y => decide (y ∈ xs))).Nodup :=
    List.Nodup.filter _ (List.nodup_range n)
  have hmem : ∀ y, (y ∈ (List.range n).filter (fun y => decide (y ∈ xs))) ↔ y ∈ xs := by
    intro y
    simp only [List.mem_filter, List.mem_range, decide_eq_true_eq]
    exact ⟨fun h => h.2, fun h => ⟨hbound y h, h⟩⟩
  have hperm : List.Perm xs ((List.range n).filter (fun y => decide (y ∈ xs))) := by
    apply List.perm_of_nodup_nodup_toFinset_eq hnd hndys
    ext a
    simp only [List.mem_toFinset, hmem]
  simp only [kperms, List.mem_flatMap]
  refine ⟨(List.range n).filter (fun y => decide (y ∈ xs)), ?_, ?_⟩
  · rw [List.mem_sublistsLen]
    exact ⟨List.filter_sublist _, by rw [← hperm.length_eq, hlen]⟩
  · rw [List.mem_permutations']
    exact hperm

theorem candidateMatchings_sound (n m : ℕ) (L : List (ℕ × ℕ))
    (h : L ∈ candidateMatchings n m) :
    (L.map Prod.fst).Nodup ∧ (L.map Prod.snd).Nodup ∧ L.length = min n m ∧
    ∀ p ∈ L, p.1 < n ∧ p.2 < m := by
  simp only [candidateMatchings, List.mem_flatMap, List.mem_map] at h
  obtain ⟨R, hR, C, hC, rfl⟩ := h
  obtain ⟨hRnd, hRlen, hRb⟩ := kperms_sound n (min n m) R hR
  obtain ⟨hCnd, hClen, hCb⟩ := kperms_sound m (min n m) C hC
  have hlen : R.length ≤ C.length := by rw [hRlen, hClen]
  have hfst : (R.zip C).map Prod.fst = R := List.map_fst_zip R C hlen
  have hsnd : (R.zip C).map Prod.snd = C := List.map_snd_zip R C (by rw [hRlen, hClen])
  refine ⟨by rw [hfst]; exact hRnd, by rw [hsnd]; exact hCnd, ?_, ?_⟩
  · rw [List.length_zip, hRlen, hClen]
    exact Nat.min_self _
  · intro p hp
    obtain ⟨a, b⟩ := p
    obtain ⟨h1, h2⟩ := List.of_mem_zip hp
    exact ⟨hRb a h1, hCb b h2⟩

theorem candidateMatchings_complete (n m : ℕ) (L : List (ℕ × ℕ))
    (h1 : (L.map Prod.fst).Nodup) (h2 : (L.map Prod.snd).Nodup)
    (hlen : L.length = min n m) (hb : ∀ p ∈ L, p.1 < n ∧ p.2 < m) :
    L ∈ candidateMatchings n m := by
  simp only [candidateMatchings, List.mem_flatMap, List.mem_map]
  refine ⟨L.map Prod.fst, ?_, L.map Prod.snd, ?_, ?_⟩
  · refine kperms_complete n (min n m) _ h1 (by simp [hlen]) ?_
    intro x hx
    simp only [List.mem_map] at hx
    obtain ⟨p, hp, rfl⟩ := hx
    exact (hb p hp).1
  · refine kperms_complete m (min n m) _ h2 (by simp [hlen]) ?_
    intro x hx
    simp only [List.mem_map] at hx
    obtain ⟨p, hp, rfl⟩ := hx
    exact (hb p hp).2
  · exact (List.zip_of_prod rfl rfl).symm

/-! ### Properties of the solver model -/

theorem pickBest_go (M : List (List (WithTop ℚ))) :
    ∀ (cands : List (List (ℕ × ℕ))) (acc : Option (List (ℕ × ℕ) × WithTop ℚ)),
      (∀ L₀ c₀, acc = some (L₀, c₀) → c₀ = matchCost M L₀) →
      ∀ L c,
        cands.foldl (pickStep M) acc = some (L, c) →
        c = matchCost M L ∧ (L ∈ cands ∨ acc = some (L, c)) ∧
        (∀ L' ∈ cands, c ≤ matchCost M L') ∧
        (∀ L₀ c₀, acc = some (L₀, c₀) → c ≤ c₀) := by
  intro cands
  induction cands with
  | nil =>
    intro acc hacc L c h
    simp only [List.foldl_nil] at h
    refine ⟨hacc L c h, Or.inr h, by simp, ?_⟩
    intro L₀ c₀ h₀
    rw [h] at h₀
    simp only [Option.some.injEq, Prod.mk.injEq] at h₀
    exact le_of_eq h₀.2
  | cons x rest ih =>
    intro acc hacc L c h
    rw [List.foldl_cons] at h
    cases acc with
    | none =>
      have hstep : pickStep M none x = some (x, matchCost M x) := rfl
      rw [hstep] at h
      obtain ⟨hc, hmem, hmin, hle⟩ := ih (some (x, matchCost M x)) (by
        intro L₀ c₀ h₀
        simp only [Option.some.injEq, Prod.mk.injEq] at h₀
        rw [← h₀.1, ← h₀.2]) L c h
      refine ⟨hc, ?_, ?_, by simp⟩
      · rcases hmem with hmem | hmem
        · exact Or.inl (List.mem_cons_of_mem x hmem)
        · simp only [Option.some.injEq, Prod.mk.injEq] at hmem
          exact Or.inl (hmem.1 ▸ List.mem_cons_self x rest)
      · intro L' hL'
        rcases List.mem_cons.1 hL' with rfl | hL'
        · exact hle L' (matchCost M L') rfl
        · exact hmin L' hL'
    | some pc =>
      obtain ⟨L₁, c₁⟩ := pc
      have hc₁ : c₁ = matchCost M L₁ := hacc L₁ c₁ rfl
      have hstep : pickStep M (some (L₁, c₁)) x =
          if matchCost M x < c₁ then some (x, matchCost M x) else some (L₁, c₁) := rfl
      rw [hstep] at h
      by_cases hlt : matchCost M x < c₁
      · rw [if_pos hlt] at h
        obtain ⟨hc, hmem, hmin, hle⟩ := ih (some (x, matchCost M x)) (by
          intro L₀ c₀ h₀
          simp only [Option.some.injEq, Prod.mk.injEq] at h₀
          rw [← h₀.1, ← h₀.2]) L c h
        refine ⟨hc, ?_, ?_, ?_⟩
        · rcases hmem with hmem | hmem
          · exact Or.inl (List.mem_cons_of_mem x hmem)
          · simp only [Option.some.injEq, Prod.mk.injEq] at hmem
            exact Or.inl (hmem.1 ▸ List.mem_cons_self x rest)
        · intro L' hL'
          rcases List.mem_cons.1 hL' with rfl | hL'
          · exact hle L' (matchCost M L') rfl
          · exact hmin L' hL'
        · intro L₀ c₀ h₀
          simp only [Option.some.injEq, Prod.mk.injEq] at h₀
          have := hle x (matchCost M x) rfl
          rw [← h₀.2]
          exact le_trans this (le_of_lt hlt)
      · rw [if_neg hlt] at h
        obtain ⟨hc, hmem, hmin, hle⟩ := ih (some (L₁, c₁)) hacc L c h
        refine ⟨hc, ?_, ?_, ?_⟩
        · rcases hmem with hmem | hmem
          · exact Or.inl (List.mem_cons_of_mem x hmem)
          · exact Or.inr hmem
        · intro L' hL'
          rcases List.mem_cons.1 hL' with rfl | hL'
          · exact le_trans (hle L₁ c₁ rfl) (not_lt.1 hlt)
          · exact hmin L' hL'
        · intro L₀ c₀ h₀
          simp only [Option.some.injEq, Prod.mk.injEq] at h₀
          rw [← h₀.2]
          exact hle L₁ c₁ rfl

theorem pickBest_spec (M : List (List (WithTop ℚ))) (cands : List (List (ℕ × ℕ)))
    (L : List (ℕ × ℕ)) (c : WithTop ℚ) (h : pickBest M cands = some (L, c)) :
    L ∈ cands ∧ c = matchCost M L ∧ ∀ L' ∈ cands, c ≤ matchCost M L' := by
  obtain ⟨hc, hmem, hmin, _⟩ := pickBest_go M cands none (by simp) L c h
  rcases hmem with hmem | hmem
  · exact ⟨hmem, hc, hmin⟩
  · simp at hmem

theorem linear_sum_assignment_ok (M : List (List (WithTop ℚ))) (L : List (ℕ × ℕ))
    (h : linear_sum_assignment M = .ok L) :
    L ∈ candidateMatchings M.length (M.getD 0 []).length ∧
    matchCost M L ≠ ⊤ ∧
    ∀ L' ∈ candidateMatchings M.length (M.getD 0 []).length,
      matchCost M L ≤ matchCost M L' := by
  simp only [linear_sum_assignment] at h
  cases hpb : pickBest M (candidateMatchings M.length (M.getD 0 []).length) with
  | none => rw [hpb] at h; exact absurd h (by simp)
  | some pc =>
    obtain ⟨L₀, c₀⟩ := pc
    rw [hpb] at h
    have h' : (if c₀ = ⊤ then (Except.error Err.infeasibleMatrix : Except Err (List (ℕ × ℕ)))
        else Except.ok L₀) = Except.ok L := h
    by_cases hc : c₀ = ⊤
    · rw [if_pos hc] at h'
      exact absurd h' (by simp)
    · rw [if_neg hc] at h'
      simp only [Except.ok.injEq] at h'
      subst h'
      obtain ⟨hmem, hcost, hmin⟩ :=
        pickBest_spec M (candidateMatchings M.length ((M.getD 0 []).length)) _ c₀ hpb
      exact ⟨hmem, hcost ▸ hc, fun L' hL' => hcost ▸ hmin L' hL'⟩

theorem matchCost_ne_top (M : List (List (WithTop ℚ))) :
    ∀ (L : List (ℕ × ℕ)), matchCost M L ≠ ⊤ → ∀ p ∈ L, entry M p.1 p.2 ≠ ⊤ := by
  intro L
  induction L with
  | nil => simp
  | cons x rest ih =>
    intro h p hp
    rw [matchCost, List.map_cons, List.sum_cons, WithTop.add_ne_top] at h
    rcases List.mem_cons.1 hp with rfl | hp
    · exact h.1
    · exact ih h.2 p hp

theorem filter_of_no_top (M : List (List (WithTop ℚ))) (L : List (ℕ × ℕ))
    (h : ∀ p ∈ L, entry M p.1 p.2 ≠ ⊤) :
    (L.filter fun p => decide (entry M p.1 p.2 ≠ ⊤)) = L := by
  rw [List.filter_eq_self]
  intro a ha
  simpa using h a ha

theorem optimize_assignmentsFixed_ok (dist : ℚ × ℚ → ℚ × ℚ → ℚ)
    (ts : List Truck) (cs : List Cargo) (A : List (ℕ × ℕ))
    (info : List ((ℕ × ℕ) × CostEntry))
    (h : optimize_assignmentsFixed dist ts cs = .ok (A, info)) :
    ∃ M, calculate_cost_matrixFixed dist ts cs = .ok (M, info) ∧
      ∃ L, linear_sum_assignment M = .ok L ∧ A = L ∧
        ∀ p ∈ A, entry M p.1 p.2 ≠ ⊤ := by
  simp only [optimize_assignmentsFixed, bind_ok_iff] at h
  obtain ⟨⟨M, info'⟩, hM, L, hL, heq⟩ := h
  simp only [pure_eq_ok, Except.ok.injEq, Prod.mk.injEq] at heq
  obtain ⟨hA, hinfo⟩ := heq
  subst hinfo
  have hne := (linear_sum_assignment_ok M L hL).2.1
  have hall := matchCost_ne_top M L hne
  have hfilter := filter_of_no_top M L hall
  rw [hfilter] at hA
  subst hA
  exact ⟨M, hM, L, hL, rfl, hall⟩

/-! ### The build and the pipeline depend on the distance provider only
through its values on the given records -/

theorem pairCell_ext (d₁ d₂ : ℚ × ℚ → ℚ × ℚ → ℚ) (calcu : TimeCostCalculator)
    (t : Truck) (c : Cargo)
    (h : d₁ (t.latitude_dropoff, t.longitude_dropoff)
          (c.delivery_latitude, c.delivery_longitude)
       = d₂ (t.latitude_dropoff, t.longitude_dropoff)
          (c.delivery_latitude, c.delivery_longitude)) :
    pairCell d₁ calcu t c = pairCell d₂ calcu t c := by
  simp only [pairCell, h]

theorem pairCellFixed_ext (d₁ d₂ : ℚ × ℚ → ℚ × ℚ → ℚ) (calcu : TimeCostCalculator)
    (t : Truck) (c : Cargo)
    (h : d₁ (t.latitude_dropoff, t.longitude_dropoff)
          (c.delivery_latitude, c.delivery_longitude)
       = d₂ (t.latitude_dropoff, t.longitude_dropoff)
          (c.delivery_latitude, c.delivery_longitude)) :
    pairCellFixed d₁ calcu t c = pairCellFixed d₂ calcu t c := by
  simp only [pairCellFixed, h]

theorem buildCells_ext (d₁ d₂ : ℚ × ℚ → ℚ × ℚ → ℚ) (calcu : TimeCostCalculator)
    (t : Truck) (i : ℕ) :
    ∀ (cs : List Cargo) (j₀ : ℕ),
      (∀ c ∈ cs, d₁ (t.latitude_dropoff, t.longitude_dropoff)
          (c.delivery_latitude, c.delivery_longitude)
        = d₂ (t.latitude_dropoff, t.longitude_dropoff)
          (c.delivery_latitude, c.delivery_longitude)) →
      buildCells d₁ calcu t i j₀ cs = buildCells d₂ calcu t i j₀ cs := by
  intro cs
  induction cs with
  | nil => intro j₀ _; rfl
  | cons c rest ih =>
    intro j₀ h
    have h1 := pairCell_ext d₁ d₂ calcu t c (h c (List.mem_cons_self c rest))
    have h2 := ih (j₀ + 1) (fun c' hc' => h c' (List.mem_cons_of_mem c hc'))
    simp only [buildCells, h1, h2]

theorem buildCellsFixed_ext (d₁ d₂ : ℚ × ℚ → ℚ × ℚ → ℚ) (calcu : TimeCostCalculator)
    (t : Truck) (i : ℕ) :
    ∀ (cs : List Cargo) (j₀ : ℕ),
      (∀ c ∈ cs, d₁ (t.latitude_dropoff, t.longitude_dropoff)
          (c.delivery_latitude, c.delivery_longitude)
        = d₂ (t.latitude_dropoff, t.longitude_dropoff)
          (c.delivery_latitude, c.delivery_longitude)) →
      buildCellsFixed d₁ calcu t i j₀ cs = buildCellsFixed d₂ calcu t i j₀ cs := by
  intro cs
  induction cs with
  | nil => intro j₀ _; rfl
  | cons c rest ih =>
    intro j₀ h
    have h1 := pairCellFixed_ext d₁ d₂ calcu t c (h c (List.mem_cons_self c rest))
    have h2 := ih (j₀ + 1) (fun c' hc' => h c' (List.mem_cons_of_mem c hc'))
    simp only [buildCellsFixed, h1, h2]

theorem buildRows_ext (d₁ d₂ : ℚ × ℚ → ℚ × ℚ → ℚ) (calcu : TimeCostCalculator)
    (cs : List Cargo) :
    ∀ (ts : List Truck) (i₀ : ℕ),
      (∀ t ∈ ts, ∀ c ∈ cs, d₁ (t.latitude_dropoff, t.longitude_dropoff)
          (c.delivery_latitude, c.delivery_longitude)
        = d₂ (t.latitude_dropoff, t.longitude_dropoff)
          (c.delivery_latitude, c.delivery_longitude)) →
      buildRows d₁ calcu cs i₀ ts = buildRows d₂ calcu cs i₀ ts := by
  intro ts
  induction ts with
  | nil => intro i₀ _; rfl
  | cons t rest ih =>
    intro i₀ h
    have h1 := buildCells_ext d₁ d₂ calcu t i₀ cs 0
      (fun c hc => h t (List.mem_cons_self t rest) c hc)
    have h2 := ih (i₀ + 1) (fun t' ht' c hc => h t' (List.mem_cons_of_mem t ht') c hc)
    simp only [buildRows, h1, h2]

theorem buildRowsFixed_ext (d₁ d₂ : ℚ × ℚ → ℚ × ℚ → ℚ) (calcu : TimeCostCalculator)
    (cs : List Cargo) :
    ∀ (ts : List Truck) (i₀ : ℕ),
      (∀ t ∈ ts, ∀ c ∈ cs, d₁ (t.latitude_dropoff, t.longitude_dropoff)
          (c.delivery_latitude, c.delivery_longitude)
        = d₂ (t.latitude_dropoff, t.longitude_dropoff)
          (c.delivery_latitude, c.delivery_longitude)) →
      buildRowsFixed d₁ calcu cs i₀ ts = buildRowsFixed d₂ calcu cs i₀ ts := by
  intro ts
  induction ts with
  | nil => intro i₀ _; rfl
  | cons t rest ih =>
    intro i₀ h
    have h1 := buildCellsFixed_ext d₁ d₂ calcu t i₀ cs 0
      (fun c hc => h t (List.mem_cons_self t rest) c hc)
    have h2 := ih (i₀ + 1) (fun t' ht' c hc => h t' (List.mem_cons_of_mem t ht') c hc)
    simp only [buildRowsFixed, h1, h2]

/-! ### Degenerate (empty) inputs never reach the failing pair body -/

theorem buildRows_nil_cargo (dist : ℚ × ℚ → ℚ × ℚ → ℚ) (calcu : TimeCostCalculator) :
    ∀ (ts : List Truck) (i : ℕ),
      buildRows dist calcu [] i ts = .ok (ts.map fun _ => [], []) := by
  intro ts
  induction ts with
  | nil => intro i; rfl
  | cons t rest ih =>
    intro i
    simp [buildRows, buildCells, ih, ok_bind]

theorem lsa_zero_cols (M : List (List (WithTop ℚ))) (hm : (M.getD 0 []).length = 0) :
    linear_sum_assignment M = .ok [] := by
  have hcand : candidateMatchings M.length (M.getD 0 []).length = [[]] := by
    rw [hm]
    simp [candidateMatchings, kperms, List.sublistsLen_zero, List.permutations']
  simp only [linear_sum_assignment, hcand]
  have hpb : pickBest M [[]] = some ([], 0) := by
    simp [pickBest, pickStep, matchCost]
  rw [hpb]
  have h0 : ((0 : WithTop ℚ)) ≠ ⊤ := by
    intro hcontra
    exact (WithTop.coe_ne_top : ((0 : ℚ) : WithTop ℚ) ≠ ⊤) (by exact_mod_cast hcontra)
  simp [h0]

/-! ### Claim theorems -/

/-- C7: `calculate_pickup_time` returns the release timestamp minus
`distance / standard_speed` hours, where the standard speed is the fixed
configuration constant defaulting to 73 distance-units per hour; it is a
pure function of its arguments (a total Lean function of the parsed
timestamp and the distance). -/
theorem C7_pickup_time_formula :
    mkTimeCostCalculator.standard_speed_kmh = 73 ∧
    ∀ (v d : ℚ),
      mkTimeCostCalculator.calculate_pickup_time (TimeStr.valid v) d
        = .ok (v - d / 73) := by
  refine ⟨rfl, ?_⟩
  intro v d
  norm_num [TimeCostCalculator.calculate_pickup_time,
    TimeCostCalculator.calculate_travel_time, strptime, mkTimeCostCalculator,
    ok_bind, pure_eq_ok]

/-- C10: `calculate_travel_time` divides the distance by
`standard_speed_kmh` with no guard: a calculator constructed with speed 0
raises `ZeroDivisionError` on every call, the error propagates through
`calculate_pickup_time` (and hence any build using such a calculator), and
no constructor or caller checks the speed; for every nonzero speed the
division succeeds. -/
theorem C10_unguarded_division (s : ℚ) (hs : s ≠ 0) :
    (∀ d : ℚ, (⟨0⟩ : TimeCostCalculator).calculate_travel_time d
        = .error .zeroDivisionError) ∧
    (∀ (d : ℚ) (t : TimeStr), (⟨0⟩ : TimeCostCalculator).calculate_pickup_time t d
        = .error .zeroDivisionError) ∧
    (∀ d : ℚ, (⟨s⟩ : TimeCostCalculator).calculate_travel_time d = .ok (d / s)) := by
  refine ⟨?_, ?_, ?_⟩
  · intro d
    simp [TimeCostCalculator.calculate_travel_time]
  · intro d t
    simp [TimeCostCalculator.calculate_pickup_time,
      TimeCostCalculator.calculate_travel_time, error_bind]
  · intro d
    simp [TimeCostCalculator.calculate_travel_time, hs]

/-- Witness for C10 at speed 73 and distance 146. -/
theorem C10_witness :
    (73 : ℚ) ≠ 0 ∧
    (⟨0⟩ : TimeCostCalculator).calculate_travel_time 146
      = .error .zeroDivisionError ∧
    (⟨73⟩ : TimeCostCalculator).calculate_travel_time 146 = .ok (146 / 73) := by
  have h : (73 : ℚ) ≠ 0 := by norm_num
  obtain ⟨h1, _, h3⟩ := C10_unguarded_division 73 h
  exact ⟨h, h1 146, h3 146⟩

/-- C8: zero resources or zero tasks is not an error: the build returns an
empty matrix (no cells) and the solver an empty assignment — this holds for
the source exactly as written, because empty collections never reach the
failing loop body. -/
theorem C8_empty_inputs (dist : ℚ × ℚ → ℚ × ℚ → ℚ) (ts : List Truck)
    (cs : List Cargo) :
    calculate_cost_matrix dist [] cs = .ok ([], []) ∧
    calculate_cost_matrix dist ts [] = .ok (ts.map fun _ => [], []) ∧
    optimize_assignments dist [] cs = .ok ([], []) ∧
    optimize_assignments dist ts [] = .ok ([], []) := by
  have hbuild1 : calculate_cost_matrix dist [] cs = .ok ([], []) := rfl
  have hbuild2 : calculate_cost_matrix dist ts [] = .ok (ts.map fun _ => [], []) :=
    buildRows_nil_cargo dist mkTimeCostCalculator ts 0
  have hlsa1 : linear_sum_assignment [] = .ok [] := lsa_zero_cols [] (by simp)
  have hlsa2 : linear_sum_assignment (ts.map fun _ => []) = .ok [] :=
    lsa_zero_cols (ts.map fun _ => []) (by cases ts <;> simp)
  refine ⟨hbuild1, hbuild2, ?_, ?_⟩
  · simp [optimize_assignments, hbuild1, hlsa1, ok_bind, pure_eq_ok]
  · simp only [optimize_assignments, hbuild2, ok_bind]
    rw [hlsa2, ok_bind]
    simp [pure_eq_ok]

/-- C1 (against the claim): the build does not complete on well-formed
non-empty collections — the very first pair raises `NameError`
(`optimizer.py` line 44 uses `datetime` without importing it); and even
with the import supplied, one malformed timestamp (here `Available_From`
of the first cargo) raises `ValueError` with no handler, aborting the
whole build instead of making only that pair infeasible. -/
theorem C1_build_aborts :
    calculate_cost_matrix (fun _ _ => 0)
      [⟨0, 0, TimeStr.valid 10, 2, 3⟩]
      [⟨0, 0, TimeStr.valid 10, TimeStr.valid 12⟩]
      = .error .nameError ∧
    calculate_cost_matrixFixed (fun _ _ => 0)
      [⟨0, 0, TimeStr.valid 10, 2, 3⟩, ⟨1, 1, TimeStr.valid 10, 2, 3⟩]
      [⟨0, 0, TimeStr.malformed, TimeStr.valid 12⟩,
        ⟨0, 0, TimeStr.valid 10, TimeStr.valid 12⟩]
      = .error .valueError := by
  constructor
  · norm_num [calculate_cost_matrix, buildRows, buildCells, pairCell,
      TimeCostCalculator.calculate_pickup_time, TimeCostCalculator.calculate_travel_time,
      TimeCostCalculator.calculate_waiting_time, TimeCostCalculator.calculate_total_cost,
      mkTimeCostCalculator, strptime, ok_bind, error_bind, pure_eq_ok]
  · norm_num [calculate_cost_matrixFixed, buildRowsFixed, buildCellsFixed, pairCellFixed,
      TimeCostCalculator.calculate_pickup_time, TimeCostCalculator.calculate_travel_time,
      TimeCostCalculator.calculate_waiting_time, TimeCostCalculator.calculate_total_cost,
      mkTimeCostCalculator, strptime, ok_bind, error_bind, pure_eq_ok]

/-- C2 counterexample: for a pair whose window closed before the projected
pickup (pickup 10, `Available_To` 5), the built matrix's only cell is
`np.inf` (`⊤`) — the infeasibility marker of `calculate_cost_matrix` is not
a finite numeric value. -/
theorem C2_counterexample :
    calculate_cost_matrixFixed (fun _ _ => 0)
      [⟨0, 0, TimeStr.valid 10, 2, 3⟩]
      [⟨0, 0, TimeStr.valid 1, TimeStr.valid 5⟩]
      = .ok ([[⊤]], []) ∧
    ¬∃ q : ℚ, entry [[⊤]] 0 0 = (q : WithTop ℚ) := by
  constructor
  · norm_num [calculate_cost_matrixFixed, buildRowsFixed, buildCellsFixed, pairCellFixed,
      TimeCostCalculator.calculate_pickup_time, TimeCostCalculator.calculate_travel_time,
      TimeCostCalculator.calculate_waiting_time, TimeCostCalculator.calculate_total_cost,
      mkTimeCostCalculator, strptime, ok_bind, error_bind, pure_eq_ok]
  · rintro ⟨q, hq⟩
    rw [entry] at hq
    simp at hq

/-- C2 amended: in the time-window builder every cell with no recorded
CostEntry holds `np.inf` (modelled `⊤`) — a value strictly greater than
every finite cost but *not* finite (the finite padding constant 1e6 appears
only in the separate distance-only streamlit variant). -/
theorem C2_infeasible_cells_hold_inf (dist : ℚ × ℚ → ℚ × ℚ → ℚ)
    (ts : List Truck) (cs : List Cargo) (M : List (List (WithTop ℚ)))
    (info : List ((ℕ × ℕ) × CostEntry)) (i j : ℕ)
    (h : calculate_cost_matrixFixed dist ts cs = .ok (M, info))
    (hi : i < ts.length) (hj : j < cs.length)
    (hnone : findEntry info i j = none) :
    entry M i j = ⊤ ∧ ∀ q : ℚ, (q : WithTop ℚ) < entry M i j := by
  obtain ⟨_, _, hspec⟩ := calculate_cost_matrixFixed_ok dist ts cs M info h
  obtain ⟨cell, eopt, hpc, hcell, hfind⟩ := hspec i hi j hj
  obtain ⟨p, w, a, _, _, _, hbr⟩ := pairCellFixed_ok _ _ _ _ _ _ hpc
  have heopt : eopt = none := by rw [← hfind]; exact hnone
  rcases hbr with ⟨_, _, hsome⟩ | ⟨_, hcelltop, _⟩
  · rw [heopt] at hsome
    exact absurd hsome (by simp)
  · refine ⟨by rw [hcell, hcelltop], ?_⟩
    intro q
    rw [hcell, hcelltop]
    exact WithTop.coe_lt_top q

/-- Witness for the amended C2 at the concrete infeasible pair of
`C2_counterexample`. -/
theorem C2_witness :
    entry [[⊤]] 0 0 = ⊤ ∧ ∀ q : ℚ, (q : WithTop ℚ) < entry [[⊤]] 0 0 := by
  have hbuild : calculate_cost_matrixFixed (fun _ _ => 0)
      [⟨0, 0, TimeStr.valid 10, 2, 3⟩]
      [⟨0, 0, TimeStr.valid 1, TimeStr.valid 5⟩]
      = .ok ([[⊤]], []) := by
    norm_num [calculate_cost_matrixFixed, buildRowsFixed, buildCellsFixed, pairCellFixed,
      TimeCostCalculator.calculate_pickup_time, TimeCostCalculator.calculate_travel_time,
      TimeCostCalculator.calculate_waiting_time, TimeCostCalculator.calculate_total_cost,
      mkTimeCostCalculator, strptime, ok_bind, error_bind, pure_eq_ok]
  exact C2_infeasible_cells_hold_inf (fun _ _ => 0)
    [⟨0, 0, TimeStr.valid 10, 2, 3⟩] [⟨0, 0, TimeStr.valid 1, TimeStr.valid 5⟩]
    [[⊤]] [] 0 0 hbuild (by decide) (by decide) rfl

/-- C3 (proved for the build with the missing `datetime` import supplied,
see C1): cell `(i,j)` is finite and a CostEntry is recorded iff the
projected pickup time is at most `Available_To`; in the feasible case the
cell equals the CostEntry's total cost, which is the distance cost plus the
waiting cost. -/
theorem C3_feasibility_gate (dist : ℚ × ℚ → ℚ × ℚ → ℚ)
    (ts : List Truck) (cs : List Cargo) (M : List (List (WithTop ℚ)))
    (info : List ((ℕ × ℕ) × CostEntry)) (i j : ℕ) (p a : ℚ)
    (h : calculate_cost_matrixFixed dist ts cs = .ok (M, info))
    (hi : i < ts.length) (hj : j < cs.length)
    (hp : mkTimeCostCalculator.calculate_pickup_time
        (ts.get ⟨i, hi⟩).timestamp_dropoff
        (pairDist dist (ts.get ⟨i, hi⟩) (cs.get ⟨j, hj⟩)) = .ok p)
    (ha : strptime (cs.get ⟨j, hj⟩).available_to = .ok a) :
    ((entry M i j ≠ ⊤ ∧ findEntry info i j ≠ none) ↔ p ≤ a) ∧
    ∀ e, findEntry info i j = some e →
      entry M i j = (e.total_cost : WithTop ℚ) ∧
      e.total_cost = e.distance_cost + e.waiting_cost := by
  obtain ⟨_, _, hspec⟩ := calculate_cost_matrixFixed_ok dist ts cs M info h
  obtain ⟨cell, eopt, hpc, hcell, hfind⟩ := hspec i hi j hj
  obtain ⟨p', w, a', hp', hw', ha', hbr⟩ := pairCellFixed_ok _ _ _ _ _ _ hpc
  rw [hp] at hp'
  rw [ha] at ha'
  simp only [Except.ok.injEq] at hp' ha'
  subst hp'
  subst ha'
  rcases hbr with ⟨hpa, hcellval, hsome⟩ | ⟨hpa, hcelltop, hnone⟩
  · constructor
    · rw [hcell, hcellval, hfind, hsome]
      simp only [ne_eq, WithTop.coe_ne_top, not_false_eq_true, true_and]
      simp [hpa]
    · intro e he
      rw [hfind, hsome] at he
      simp only [Option.some.injEq] at he
      subst he
      refine ⟨by rw [hcell, hcellval], ?_⟩
      simp [TimeCostCalculator.calculate_total_cost]
  · constructor
    · rw [hcell, hcelltop, hfind, hnone]
      simp [hpa]
    · intro e he
      rw [hfind, hnone] at he
      exact absurd he (by simp)

/-- Witness for C3 at a concrete feasible pair (pickup 10, window ending
12, zero distance): the cell is finite with a recorded entry. -/
theorem C3_witness :
    ((entry [[((0 : ℚ) : WithTop ℚ)]] 0 0 ≠ ⊤ ∧
        findEntry [((0, 0), ⟨10, 0, 0, 0, 0, 0⟩)] 0 0 ≠ none) ↔ (10 : ℚ) ≤ 12) ∧
    ∀ e, findEntry [((0, 0), (⟨10, 0, 0, 0, 0, 0⟩ : CostEntry))] 0 0 = some e →
      entry [[((0 : ℚ) : WithTop ℚ)]] 0 0 = (e.total_cost : WithTop ℚ) ∧
      e.total_cost = e.distance_cost + e.waiting_cost := by
  have hbuild : calculate_cost_matrixFixed (fun _ _ => 0)
      [⟨0, 0, TimeStr.valid 10, 2, 3⟩]
      [⟨0, 0, TimeStr.valid 10, TimeStr.valid 12⟩]
      = .ok ([[((0 : ℚ) : WithTop ℚ)]], [((0, 0), ⟨10, 0, 0, 0, 0, 0⟩)]) := by
    norm_num [calculate_cost_matrixFixed, buildRowsFixed, buildCellsFixed, pairCellFixed,
      TimeCostCalculator.calculate_pickup_time, TimeCostCalculator.calculate_travel_time,
      TimeCostCalculator.calculate_waiting_time, TimeCostCalculator.calculate_total_cost,
      mkTimeCostCalculator, strptime, ok_bind, error_bind, pure_eq_ok]
  have hp : mkTimeCostCalculator.calculate_pickup_time (TimeStr.valid 10)
      (pairDist (fun _ _ => 0) ⟨0, 0, TimeStr.valid 10, 2, 3⟩
        ⟨0, 0, TimeStr.valid 10, TimeStr.valid 12⟩) = .ok 10 := by
    norm_num [TimeCostCalculator.calculate_pickup_time,
      TimeCostCalculator.calculate_travel_time, strptime, mkTimeCostCalculator,
      pairDist, ok_bind, pure_eq_ok]
  exact C3_feasibility_gate (fun _ _ => 0)
    [⟨0, 0, TimeStr.valid 10, 2, 3⟩] [⟨0, 0, TimeStr.valid 10, TimeStr.valid 12⟩]
    [[((0 : ℚ) : WithTop ℚ)]] [((0, 0), ⟨10, 0, 0, 0, 0, 0⟩)] 0 0 10 12
    hbuild (by decide) (by decide) hp rfl

/-- C6 counterexample: a truck with a negative `price per km` (-2) at
distance 73 forms a feasible pair and receives a finite *negative* cost
(-146) and a recorded CostEntry — it is not treated as `InvalidInput`
(no sentinel cell, no crash isolation, no validation at all). -/
theorem C6_counterexample :
    calculate_cost_matrixFixed (fun _ _ => 73)
      [⟨0, 0, TimeStr.valid 10, -2, 3⟩]
      [⟨0, 0, TimeStr.valid 9, TimeStr.valid 12⟩]
      = .ok ([[((-146 : ℚ) : WithTop ℚ)]],
          [((0, 0), ⟨9, 0, 73, -146, 0, -146⟩)]) ∧
    ((-146 : ℚ) : WithTop ℚ) ≠ ⊤ := by
  constructor
  · norm_num [calculate_cost_matrixFixed, buildRowsFixed, buildCellsFixed, pairCellFixed,
      TimeCostCalculator.calculate_pickup_time, TimeCostCalculator.calculate_travel_time,
      TimeCostCalculator.calculate_waiting_time, TimeCostCalculator.calculate_total_cost,
      mkTimeCostCalculator, strptime, ok_bind, error_bind, pure_eq_ok]
  · exact WithTop.coe_ne_top

/-- C6 amended: negative prices (or distances) undergo no validation
anywhere in the pipeline — whenever the time gate passes, the pair is
costed by the ordinary formula (distance·price + wait·price, possibly
negative) and a CostEntry is recorded, negative price notwithstanding. -/
theorem C6_negative_price_not_validated (dist : ℚ × ℚ → ℚ × ℚ → ℚ)
    (ts : List Truck) (cs : List Cargo) (M : List (List (WithTop ℚ)))
    (info : List ((ℕ × ℕ) × CostEntry)) (i j : ℕ) (p w a : ℚ)
    (h : calculate_cost_matrixFixed dist ts cs = .ok (M, info))
    (hi : i < ts.length) (hj : j < cs.length)
    (hneg : (ts.get ⟨i, hi⟩).price_per_km < 0)
    (hp : mkTimeCostCalculator.calculate_pickup_time
        (ts.get ⟨i, hi⟩).timestamp_dropoff
        (pairDist dist (ts.get ⟨i, hi⟩) (cs.get ⟨j, hj⟩)) = .ok p)
    (hw : mkTimeCostCalculator.calculate_waiting_time p
        (cs.get ⟨j, hj⟩).available_from = .ok w)
    (ha : strptime (cs.get ⟨j, hj⟩).available_to = .ok a)
    (hgate : p ≤ a) :
    ∃ e, findEntry info i j = some e ∧
      entry M i j = (e.total_cost : WithTop ℚ) ∧
      e.total_cost =
        pairDist dist (ts.get ⟨i, hi⟩) (cs.get ⟨j, hj⟩) * (ts.get ⟨i, hi⟩).price_per_km
          + w * (ts.get ⟨i, hi⟩).waiting_price_per_h := by
  obtain ⟨_, _, hspec⟩ := calculate_cost_matrixFixed_ok dist ts cs M info h
  obtain ⟨cell, eopt, hpc, hcell, hfind⟩ := hspec i hi j hj
  obtain ⟨p', w', a', hp', hw', ha', hbr⟩ := pairCellFixed_ok _ _ _ _ _ _ hpc
  rw [hp] at hp'
  simp only [Except.ok.injEq] at hp'
  subst hp'
  rw [hw] at hw'
  simp only [Except.ok.injEq] at hw'
  subst hw'
  rw [ha] at ha'
  simp only [Except.ok.injEq] at ha'
  subst ha'
  rcases hbr with ⟨_, hcellval, hsome⟩ | ⟨hpa, _, _⟩
  · refine ⟨_, by rw [hfind, hsome], ?_, ?_⟩
    · rw [hcell, hcellval]
    · simp [TimeCostCalculator.calculate_total_cost]
  · exact absurd hgate hpa

/-- Witness for the amended C6 at the concrete negative-price pair of
`C6_counterexample`. -/
theorem C6_witness :
    (-2 : ℚ) < 0 ∧ (9 : ℚ) ≤ 12 ∧
    ∃ e, findEntry [((0, 0), (⟨9, 0, 73, -146, 0, -146⟩ : CostEntry))] 0 0 = some e ∧
      entry [[((-146 : ℚ) : WithTop ℚ)]] 0 0 = (e.total_cost : WithTop ℚ) ∧
      e.total_cost =
        pairDist (fun _ _ => 73) ⟨0, 0, TimeStr.valid 10, -2, 3⟩
            ⟨0, 0, TimeStr.valid 9, TimeStr.valid 12⟩ * (-2)
          + 0 * 3 := by
  have hbuild : calculate_cost_matrixFixed (fun _ _ => 73)
      [⟨0, 0, TimeStr.valid 10, -2, 3⟩]
      [⟨0, 0, TimeStr.valid 9, TimeStr.valid 12⟩]
      = .ok ([[((-146 : ℚ) : WithTop ℚ)]],
          [((0, 0), ⟨9, 0, 73, -146, 0, -146⟩)]) := by
    norm_num [calculate_cost_matrixFixed, buildRowsFixed, buildCellsFixed, pairCellFixed,
      TimeCostCalculator.calculate_pickup_time, TimeCostCalculator.calculate_travel_time,
      TimeCostCalculator.calculate_waiting_time, TimeCostCalculator.calculate_total_cost,
      mkTimeCostCalculator, strptime, ok_bind, error_bind, pure_eq_ok]
  have hp : mkTimeCostCalculator.calculate_pickup_time (TimeStr.valid 10)
      (pairDist (fun _ _ => 73) ⟨0, 0, TimeStr.valid 10, -2, 3⟩
        ⟨0, 0, TimeStr.valid 9, TimeStr.valid 12⟩) = .ok 9 := by
    norm_num [TimeCostCalculator.calculate_pickup_time,
      TimeCostCalculator.calculate_travel_time, strptime, mkTimeCostCalculator,
      pairDist, ok_bind, pure_eq_ok]
  have hw : mkTimeCostCalculator.calculate_waiting_time 9 (TimeStr.valid 9) = .ok 0 := by
    norm_num [TimeCostCalculator.calculate_waiting_time, strptime, ok_bind, pure_eq_ok]
  refine ⟨by norm_num, by norm_num, ?_⟩
  exact C6_negative_price_not_validated (fun _ _ => 73)
    [⟨0, 0, TimeStr.valid 10, -2, 3⟩] [⟨0, 0, TimeStr.valid 9, TimeStr.valid 12⟩]
    [[((-146 : ℚ) : WithTop ℚ)]] [((0, 0), ⟨9, 0, 73, -146, 0, -146⟩)] 0 0 9 0 12
    hbuild (by decide) (by decide) (by norm_num) hp hw rfl (by norm_num)

/-- C4 (proved for the pipeline with the missing `datetime` import
supplied, see C1): whenever `optimize_assignments` returns, the returned
pairs form a valid partial matching — no row or column index repeats, every
pair's cell is finite (never the `np.inf` marker), and every returned pair
satisfies the feasibility gate `projected_pickup_time ≤ available_to`. -/
theorem C4_valid_partial_matching (dist : ℚ × ℚ → ℚ × ℚ → ℚ)
    (ts : List Truck) (cs : List Cargo) (A : List (ℕ × ℕ))
    (info : List ((ℕ × ℕ) × CostEntry))
    (h : optimize_assignmentsFixed dist ts cs = .ok (A, info)) :
    (A.map Prod.fst).Nodup ∧ (A.map Prod.snd).Nodup ∧
    (∃ M, calculate_cost_matrixFixed dist ts cs = .ok (M, info) ∧
      ∀ pr ∈ A, entry M pr.1 pr.2 ≠ ⊤) ∧
    ∀ pr ∈ A, ∃ (hi : pr.1 < ts.length) (hj : pr.2 < cs.length) (p a : ℚ),
      mkTimeCostCalculator.calculate_pickup_time
          (ts.get ⟨pr.1, hi⟩).timestamp_dropoff
          (pairDist dist (ts.get ⟨pr.1, hi⟩) (cs.get ⟨pr.2, hj⟩)) = .ok p ∧
      strptime (cs.get ⟨pr.2, hj⟩).available_to = .ok a ∧ p ≤ a := by
  obtain ⟨M, hM, L, hL, hAL, hall⟩ := optimize_assignmentsFixed_ok dist ts cs A info h
  subst hAL
  obtain ⟨hlenM, hrowlen, hspec⟩ := calculate_cost_matrixFixed_ok dist ts cs M info hM
  obtain ⟨hcand, _, _⟩ := linear_sum_assignment_ok M A hL
  obtain ⟨hfstnd, hsndnd, _, hbounds⟩ := candidateMatchings_sound _ _ A hcand
  refine ⟨hfstnd, hsndnd, ⟨M, hM, hall⟩, ?_⟩
  intro pr hpr
  have hb := hbounds pr hpr
  have hi : pr.1 < ts.length := by rw [← hlenM]; exact hb.1
  have hMpos : 0 < M.length := lt_of_le_of_lt (Nat.zero_le _) hb.1
  have hrow0 : M.getD 0 [] ∈ M := by
    rw [List.getD_eq_getElem?_getD, List.getElem?_eq_getElem hMpos]
    exact List.getElem_mem hMpos
  have hj : pr.2 < cs.length := by
    rw [← hrowlen (M.getD 0 []) hrow0]
    exact hb.2
  obtain ⟨cell, eopt, hpc, hcell, hfind⟩ := hspec pr.1 hi pr.2 hj
  obtain ⟨p, w, a, hp, hw, ha, hbr⟩ := pairCellFixed_ok _ _ _ _ _ _ hpc
  rcases hbr with ⟨hpa, _, _⟩ | ⟨_, hcelltop, _⟩
  · exact ⟨hi, hj, p, a, hp, ha, hpa⟩
  · exact absurd (hcell.trans hcelltop) (hall pr hpr)

/-- Witness for C4 at a concrete feasible 1×1 input. -/
theorem C4_witness :
    (([((0 : ℕ), (0 : ℕ))].map Prod.fst).Nodup ∧
      ([((0 : ℕ), (0 : ℕ))].map Prod.snd).Nodup ∧
      (∃ M, calculate_cost_matrixFixed (fun _ _ => 0)
          [⟨0, 0, TimeStr.valid 10, 2, 3⟩]
          [⟨0, 0, TimeStr.valid 10, TimeStr.valid 12⟩]
          = .ok (M, [((0, 0), ⟨10, 0, 0, 0, 0, 0⟩)]) ∧
        ∀ pr ∈ [((0 : ℕ), (0 : ℕ))], entry M pr.1 pr.2 ≠ ⊤) ∧
      ∀ pr ∈ [((0 : ℕ), (0 : ℕ))],
        ∃ (hi : pr.1 < ([⟨0, 0, TimeStr.valid 10, 2, 3⟩] : List Truck).length)
          (hj : pr.2 < ([⟨0, 0, TimeStr.valid 10, TimeStr.valid 12⟩] : List Cargo).length)
          (p a : ℚ),
          mkTimeCostCalculator.calculate_pickup_time
              (([⟨0, 0, TimeStr.valid 10, 2, 3⟩] : List Truck).get ⟨pr.1, hi⟩).timestamp_dropoff
              (pairDist (fun _ _ => 0)
                (([⟨0, 0, TimeStr.valid 10, 2, 3⟩] : List Truck).get ⟨pr.1, hi⟩)
                (([⟨0, 0, TimeStr.valid 10, TimeStr.valid 12⟩] : List Cargo).get ⟨pr.2, hj⟩))
            = .ok p ∧
          strptime (([⟨0, 0, TimeStr.valid 10, TimeStr.valid 12⟩] : List Cargo).get
              ⟨pr.2, hj⟩).available_to = .ok a ∧ p ≤ a) := by
  have hpipe : optimize_assignmentsFixed (fun _ _ => 0)
      [⟨0, 0, TimeStr.valid 10, 2, 3⟩]
      [⟨0, 0, TimeStr.valid 10, TimeStr.valid 12⟩]
      = .ok ([(0, 0)], [((0, 0), ⟨10, 0, 0, 0, 0, 0⟩)]) := by
    norm_num [optimize_assignmentsFixed, calculate_cost_matrixFixed, buildRowsFixed,
      buildCellsFixed, pairCellFixed,
      TimeCostCalculator.calculate_pickup_time, TimeCostCalculator.calculate_travel_time,
      TimeCostCalculator.calculate_waiting_time, TimeCostCalculator.calculate_total_cost,
      mkTimeCostCalculator, strptime, ok_bind, error_bind, pure_eq_ok,
      linear_sum_assignment, candidateMatchings, kperms, pickBest, pickStep, matchCost,
      entry, List.sublistsLen, List.sublistsLenAux, List.permutations', List.permutations'Aux]
  exact C4_valid_partial_matching (fun _ _ => 0)
    [⟨0, 0, TimeStr.valid 10, 2, 3⟩] [⟨0, 0, TimeStr.valid 10, TimeStr.valid 12⟩]
    [(0, 0)] [((0, 0), ⟨10, 0, 0, 0, 0, 0⟩)] hpipe

/-- C5 counterexample: on a 1×1 matrix with a single feasible pair of
positive cost 6, the solver returns that pair (sum 6), yet the *empty*
matching — a valid matching of smaller size over the same feasible pairs —
has sum 0 < 6.  The claim's "equal or smaller size" comparison is false;
the solver minimises only over matchings of size exactly `min(rows, cols)`. -/
theorem C5_counterexample :
    optimize_assignmentsFixed (fun _ _ => 0)
      [⟨0, 0, TimeStr.valid 10, 2, 1⟩]
      [⟨0, 0, TimeStr.valid 16, TimeStr.valid 20⟩]
      = .ok ([(0, 0)], [((0, 0), ⟨10, 6, 0, 0, 6, 6⟩)]) ∧
    ValidPartialMatching 1 1 [[((6 : ℚ) : WithTop ℚ)]] [] ∧
    matchCost [[((6 : ℚ) : WithTop ℚ)]] []
      < matchCost [[((6 : ℚ) : WithTop ℚ)]] [(0, 0)] := by
  have hbuild : calculate_cost_matrixFixed (fun _ _ => 0)
      [⟨0, 0, TimeStr.valid 10, 2, 1⟩]
      [⟨0, 0, TimeStr.valid 16, TimeStr.valid 20⟩]
      = .ok ([[((6 : ℚ) : WithTop ℚ)]], [((0, 0), ⟨10, 6, 0, 0, 6, 6⟩)]) := by
    norm_num [calculate_cost_matrixFixed, buildRowsFixed, buildCellsFixed, pairCellFixed,
      TimeCostCalculator.calculate_pickup_time, TimeCostCalculator.calculate_travel_time,
      TimeCostCalculator.calculate_waiting_time, TimeCostCalculator.calculate_total_cost,
      mkTimeCostCalculator, strptime, ok_bind, error_bind, pure_eq_ok]
  have hcand : candidateMatchings 1 1 = [[(0, 0)]] := by decide
  have hcost : matchCost [[((6 : ℚ) : WithTop ℚ)]] [(0, 0)] = ((6 : ℚ) : WithTop ℚ) := by
    simp [matchCost, entry]
  have hlsa : linear_sum_assignment [[((6 : ℚ) : WithTop ℚ)]] = .ok [(0, 0)] := by
    simp only [linear_sum_assignment, List.length_singleton, List.getD_cons_zero, hcand,
      pickBest, List.foldl_cons, List.foldl_nil, pickStep, hcost]
    rw [if_neg (WithTop.coe_ne_top)]
  have hpipe : optimize_assignmentsFixed (fun _ _ => 0)
      [⟨0, 0, TimeStr.valid 10, 2, 1⟩]
      [⟨0, 0, TimeStr.valid 16, TimeStr.valid 20⟩]
      = .ok ([(0, 0)], [((0, 0), ⟨10, 6, 0, 0, 6, 6⟩)]) := by
    simp only [optimize_assignmentsFixed, hbuild, ok_bind, hlsa]
    rw [filter_of_no_top [[((6 : ℚ) : WithTop ℚ)]] [(0, 0)] (by
      intro p hp
      simp only [List.mem_singleton] at hp
      subst hp
      simp [entry])]
    rfl
  refine ⟨hpipe, by simp [ValidPartialMatching], ?_⟩
  rw [hcost]
  simp only [matchCost, List.map_nil, List.sum_nil]
  exact_mod_cast (by norm_num : (0 : ℚ) < 6)

/-- C5 amended: the returned assignment's total cost is minimal among all
valid matchings of size exactly `min(rows, cols)` over the same matrix
(matchings of strictly smaller size can be strictly cheaper when costs are
positive, see `C5_counterexample`). -/
theorem C5_optimal_among_full_matchings (dist : ℚ × ℚ → ℚ × ℚ → ℚ)
    (ts : List Truck) (cs : List Cargo) (A : List (ℕ × ℕ))
    (info : List ((ℕ × ℕ) × CostEntry)) (M : List (List (WithTop ℚ)))
    (L' : List (ℕ × ℕ))
    (h : optimize_assignmentsFixed dist ts cs = .ok (A, info))
    (hM : calculate_cost_matrixFixed dist ts cs = .ok (M, info))
    (hval : ValidPartialMatching M.length (M.getD 0 []).length M L')
    (hfull : L'.length = min M.length (M.getD 0 []).length) :
    matchCost M A ≤ matchCost M L' := by
  obtain ⟨M', hM', L, hL, hAL, _⟩ := optimize_assignmentsFixed_ok dist ts cs A info h
  subst hAL
  rw [hM] at hM'
  simp only [Except.ok.injEq, Prod.mk.injEq] at hM'
  have hMeq : M' = M := hM'.1.symm
  subst hMeq
  obtain ⟨_, _, hmin⟩ := linear_sum_assignment_ok M' A hL
  obtain ⟨h1, h2, _, hb⟩ := hval
  refine hmin L' (candidateMatchings_complete _ _ L' h1 h2 hfull ?_)
  intro p hp
  exact ⟨(hb p hp).1, (hb p hp).2.1⟩

/-- Witness for the amended C5: on the concrete 1×1 instance the returned
matching `[(0,0)]` is no more expensive than the (only) full matching
`[(0,0)]`. -/
theorem C5_witness :
    ValidPartialMatching 1 1 [[((6 : ℚ) : WithTop ℚ)]] [(0, 0)] ∧
    matchCost [[((6 : ℚ) : WithTop ℚ)]] [(0, 0)]
      ≤ matchCost [[((6 : ℚ) : WithTop ℚ)]] [(0, 0)] := by
  have hbuild : calculate_cost_matrixFixed (fun _ _ => 0)
      [⟨0, 0, TimeStr.valid 10, 2, 1⟩]
      [⟨0, 0, TimeStr.valid 16, TimeStr.valid 20⟩]
      = .ok ([[((6 : ℚ) : WithTop ℚ)]], [((0, 0), ⟨10, 6, 0, 0, 6, 6⟩)]) := by
    norm_num [calculate_cost_matrixFixed, buildRowsFixed, buildCellsFixed, pairCellFixed,
      TimeCostCalculator.calculate_pickup_time, TimeCostCalculator.calculate_travel_time,
      TimeCostCalculator.calculate_waiting_time, TimeCostCalculator.calculate_total_cost,
      mkTimeCostCalculator, strptime, ok_bind, error_bind, pure_eq_ok]
  have hcand : candidateMatchings 1 1 = [[(0, 0)]] := by decide
  have hcost : matchCost [[((6 : ℚ) : WithTop ℚ)]] [(0, 0)] = ((6 : ℚ) : WithTop ℚ) := by
    simp [matchCost, entry]
  have hlsa : linear_sum_assignment [[((6 : ℚ) : WithTop ℚ)]] = .ok [(0, 0)] := by
    simp only [linear_sum_assignment, List.length_singleton, List.getD_cons_zero, hcand,
      pickBest, List.foldl_cons, List.foldl_nil, pickStep, hcost]
    rw [if_neg (WithTop.coe_ne_top)]
  have hpipe : optimize_assignmentsFixed (fun _ _ => 0)
      [⟨0, 0, TimeStr.valid 10, 2, 1⟩]
      [⟨0, 0, TimeStr.valid 16, TimeStr.valid 20⟩]
      = .ok ([(0, 0)], [((0, 0), ⟨10, 6, 0, 0, 6, 6⟩)]) := by
    simp only [optimize_assignmentsFixed, hbuild, ok_bind, hlsa]
    rw [filter_of_no_top [[((6 : ℚ) : WithTop ℚ)]] [(0, 0)] (by
      intro p hp
      simp only [List.mem_singleton] at hp
      subst hp
      simp [entry])]
    rfl
  have hval : ValidPartialMatching 1 1 [[((6 : ℚ) : WithTop ℚ)]] [(0, 0)] := by
    refine ⟨by simp, by simp, by simp, ?_⟩
    intro p hp
    simp only [List.mem_singleton] at hp
    subst hp
    refine ⟨by decide, by decide, ?_⟩
    simp [entry]
  refine ⟨hval, ?_⟩
  exact C5_optimal_among_full_matchings (fun _ _ => 0)
    [⟨0, 0, TimeStr.valid 10, 2, 1⟩] [⟨0, 0, TimeStr.valid 16, TimeStr.valid 20⟩]
    [(0, 0)] [((0, 0), ⟨10, 6, 0, 0, 6, 6⟩)] [[((6 : ℚ) : WithTop ℚ)]] [(0, 0)]
    hpipe hbuild (by simpa using hval) (by simp)

/-- C9: the engine is deterministic — it is a pure function of the record
values and of the distances the provider returns on exactly the given
records: two runs with providers that agree on those records produce
identical results (pairs, costs and diagnostics), for the pipeline both as
written and with the import fixed. -/
theorem C9_deterministic (d₁ d₂ : ℚ × ℚ → ℚ × ℚ → ℚ)
    (ts : List Truck) (cs : List Cargo)
    (hd : ∀ t ∈ ts, ∀ c ∈ cs,
      d₁ (t.latitude_dropoff, t.longitude_dropoff)
          (c.delivery_latitude, c.delivery_longitude)
        = d₂ (t.latitude_dropoff, t.longitude_dropoff)
          (c.delivery_latitude, c.delivery_longitude)) :
    optimize_assignments d₁ ts cs = optimize_assignments d₂ ts cs ∧
    optimize_assignmentsFixed d₁ ts cs = optimize_assignmentsFixed d₂ ts cs := by
  have h1 : calculate_cost_matrix d₁ ts cs = calculate_cost_matrix d₂ ts cs :=
    buildRows_ext d₁ d₂ mkTimeCostCalculator cs ts 0 hd
  have h2 : calculate_cost_matrixFixed d₁ ts cs = calculate_cost_matrixFixed d₂ ts cs :=
    buildRowsFixed_ext d₁ d₂ mkTimeCostCalculator cs ts 0 hd
  exact ⟨by simp only [optimize_assignments, h1],
    by simp only [optimize_assignmentsFixed, h2]⟩

/-- Witness for C9: two syntactically different distance providers that
agree on the given records yield identical pipeline results. -/
theorem C9_witness :
    (∀ t ∈ [(⟨0, 0, TimeStr.valid 10, 2, 3⟩ : Truck)],
      ∀ c ∈ [(⟨0, 0, TimeStr.valid 10, TimeStr.valid 12⟩ : Cargo)],
      (fun _ _ => (0 : ℚ)) (t.latitude_dropoff, t.longitude_dropoff)
          (c.delivery_latitude, c.delivery_longitude)
        = (fun p (_ : ℚ × ℚ) => p.1) (t.latitude_dropoff, t.longitude_dropoff)
          (c.delivery_latitude, c.delivery_longitude)) ∧
    optimize_assignmentsFixed (fun _ _ => 0)
        [⟨0, 0, TimeStr.valid 10, 2, 3⟩] [⟨0, 0, TimeStr.valid 10, TimeStr.valid 12⟩]
      = optimize_assignmentsFixed (fun p (_ : ℚ × ℚ) => p.1)
        [⟨0, 0, TimeStr.valid 10, 2, 3⟩] [⟨0, 0, TimeStr.valid 10, TimeStr.valid 12⟩] := by
  have hd : ∀ t ∈ [(⟨0, 0, TimeStr.valid 10, 2, 3⟩ : Truck)],
      ∀ c ∈ [(⟨0, 0, TimeStr.valid 10, TimeStr.valid 12⟩ : Cargo)],
      (fun _ _ => (0 : ℚ)) (t.latitude_dropoff, t.longitude_dropoff)
          (c.delivery_latitude, c.delivery_longitude)
        = (fun p (_ : ℚ × ℚ) => p.1) (t.latitude_dropoff, t.longitude_dropoff)
          (c.delivery_latitude, c.delivery_longitude) := by
    intro t ht c hc
    simp only [List.mem_singleton] at ht hc
    subst ht
    subst hc
    norm_num
  exact ⟨hd, (C9_deterministic (fun _ _ => 0) (fun p _ => p.1) _ _ hd).2⟩
